import Mathlib

/-!
Shallow embedding of the `local_llm` agent subsystem
(`local_llm/agent/agent.py`, `local_llm/agent/conversation.py`,
`local_llm/agent/tool.py`, `local_llm/config.py`, `local_llm/exceptions.py`)
and proofs of the frozen claims about it.

Conventions of the embedding:
* Python `str` is `String`; `None`-able values are `Option`.
* JSON values (the payloads `json.loads` / `json.dumps` move around) are the
  inductive `JValue`.  Python objects that are not JSON-serializable but can be
  returned by a tool executable are `JValue.jraw s`, where `s` is their
  `str()` rendering (this is what `json.dumps(..., default=str)` consumes).
  JSON number literals are modelled as integers; no claim involves floats, and
  a float literal is simply a parse failure in the model.
* Exceptions are the inductive `Exn`; fallible code returns `Except Exn _`.
* `hash` of a Python string is environment-dependent (hash randomization), so
  it is a parameter `pyHash : String → Int` of the agent configuration.
-/

namespace LocalLLM

/-- JSON-compatible Python values (plus `jraw` for non-serializable tool
return values, carrying their `str()` rendering). -/
inductive JValue where
  | jnull : JValue
  | jbool : Bool → JValue
  | jnum : Int → JValue
  | jstr : String → JValue
  | jarr : List JValue → JValue
  | jobj : List (String × JValue) → JValue
  | jraw : String → JValue
deriving Repr, Inhabited

/-- Key lookup in a parsed JSON object (`parsed["k"]` / `parsed.get("k")`).
Keys produced by the parser are unique (later duplicates overwrite, as in a
Python dict), so first-match lookup agrees with dict lookup. -/
def jlookup (kvs : List (String × JValue)) (k : String) : Option JValue :=
  match kvs.find? (fun p => p.1 = k) with
  | some p => some p.2
  | none => none

/-- Insert with Python-dict semantics: an existing key keeps its position and
gets the new value, a new key is appended. -/
def jinsert (kvs : List (String × JValue)) (k : String) (v : JValue) :
    List (String × JValue) :=
  if kvs.any (fun p => p.1 = k) then
    kvs.map (fun p => if p.1 = k then (k, v) else p)
  else
    kvs ++ [(k, v)]

/-! JSON string escaping, as `json.dumps` renders string literals. -/

def escChar (c : Char) : String :=
  if c = '"' then "\\\""
  else if c = '\\' then "\\\\"
  else if c = '\n' then "\\n"
  else if c = '\t' then "\\t"
  else if c = '\r' then "\\r"
  else String.singleton c

def escapeJsonString (s : String) : String :=
  s.data.foldl (fun acc c => acc ++ escChar c) ""

/-- A double-quoted JSON string literal. -/
def jquote (s : String) : String :=
  "\"" ++ escapeJsonString s ++ "\""

/-! `json.dumps(v)` with default separators: items joined by `", "`,
keys and values joined by `": "`. -/

mutual

def dumpsCompact : JValue → String
  | .jnull => "null"
  | .jbool true => "true"
  | .jbool false => "false"
  | .jnum n => toString n
  | .jstr s => jquote s
  | .jarr l => "[" ++ dumpsCompactList l ++ "]"
  | .jobj l => "\x7b" ++ dumpsCompactFields l ++ "\x7d"
  -- `jraw` never reaches this serializer: the plain `json.dumps` in the
  -- agent is only applied to values the JSON parser produced.
  | .jraw r => jquote r

def dumpsCompactList : List JValue → String
  | [] => ""
  | [v] => dumpsCompact v
  | v :: rest => dumpsCompact v ++ ", " ++ dumpsCompactList rest

def dumpsCompactFields : List (String × JValue) → String
  | [] => ""
  | [(k, v)] => jquote k ++ ": " ++ dumpsCompact v
  | (k, v) :: rest =>
      jquote k ++ ": " ++ dumpsCompact v ++ ", " ++ dumpsCompactFields rest

end

/-- `2 * lvl` spaces, the indentation `json.dumps(..., indent=2)` emits. -/
def indentStr (lvl : Nat) : String :=
  String.mk (List.replicate (2 * lvl) ' ')

/-! `json.dumps(v, default=str, indent=2)`: pretty-printed, with `str()`
substituted for non-serializable members (our `jraw`). -/

mutual

def dumpsIndentGo : JValue → Nat → String
  | .jnull, _ => "null"
  | .jbool true, _ => "true"
  | .jbool false, _ => "false"
  | .jnum n, _ => toString n
  | .jstr s, _ => jquote s
  -- `default=str`: a non-serializable member is rendered via its `str()`.
  | .jraw r, _ => jquote r
  | .jarr [], _ => "[]"
  | .jarr (v :: rest), lvl =>
      "[\n" ++ dumpsIndentList (v :: rest) (lvl + 1) ++ "\n" ++ indentStr lvl ++ "]"
  | .jobj [], _ => "\x7b\x7d"
  | .jobj (kv :: rest), lvl =>
      "\x7b\n" ++ dumpsIndentFields (kv :: rest) (lvl + 1) ++ "\n" ++ indentStr lvl ++ "\x7d"

def dumpsIndentList : List JValue → Nat → String
  | [], _ => ""
  | [v], lvl => indentStr lvl ++ dumpsIndentGo v lvl
  | v :: rest, lvl =>
      indentStr lvl ++ dumpsIndentGo v lvl ++ ",\n" ++ dumpsIndentList rest lvl

def dumpsIndentFields : List (String × JValue) → Nat → String
  | [], _ => ""
  | [(k, v)], lvl => indentStr lvl ++ jquote k ++ ": " ++ dumpsIndentGo v lvl
  | (k, v) :: rest, lvl =>
      indentStr lvl ++ jquote k ++ ": " ++ dumpsIndentGo v lvl ++ ",\n" ++
        dumpsIndentFields rest lvl

end

/-- `json.dumps(v, default=str, indent=2)` as used by `Tool.execute`. -/
def dumpsIndent2 (v : JValue) : String := dumpsIndentGo v 0

/-! A recursive-descent JSON parser modelling `json.loads`.  Fuel-indexed to
make termination structural; the top-level wrapper supplies enough fuel for
any input it is called on. -/

def skipWs : List Char → List Char
  | [] => []
  | c :: cs =>
      if c = ' ' ∨ c = '\n' ∨ c = '\t' ∨ c = '\r' then skipWs cs else c :: cs

/-- Consume an expected literal word (e.g. `ull` after `n`). -/
def eatLit : List Char → List Char → Option (List Char)
  | [], cs => some cs
  | _, [] => none
  | l :: ls, c :: cs => if c = l then eatLit ls cs else none

/-- Parse the body of a string literal after the opening quote. -/
def parseStrBody (fuel : Nat) (cs : List Char) : Option (String × List Char) :=
  match fuel, cs with
  | 0, _ => none
  | _, [] => none
  | fuel + 1, c :: rest =>
      if c = '"' then some ("", rest)
      else if c = '\\' then
        match rest with
        | [] => none
        | e :: rest' =>
            let dec : Option Char :=
              if e = '"' then some '"'
              else if e = '\\' then some '\\'
              else if e = '/' then some '/'
              else if e = 'n' then some '\n'
              else if e = 't' then some '\t'
              else if e = 'r' then some '\r'
              else none
            match dec with
            | none => none
            | some d =>
                match parseStrBody fuel rest' with
                | some (s, r) => some (String.singleton d ++ s, r)
                | none => none
      else
        match parseStrBody fuel rest with
        | some (s, r) => some (String.singleton c ++ s, r)
        | none => none

def digitsToNat : List Char → Nat → Nat
  | [], acc => acc
  | c :: cs, acc => digitsToNat cs (acc * 10 + (c.toNat - 48))

/-- Parse an integer literal (optional minus sign, then digits). -/
def parseIntLit (cs : List Char) : Option (Int × List Char) :=
  let (neg, cs') : Bool × List Char :=
    match cs with
    | c :: rest => if c = '-' then (true, rest) else (false, cs)
    | [] => (false, [])
  let digits := cs'.takeWhile Char.isDigit
  let rest := cs'.dropWhile Char.isDigit
  if digits.isEmpty then none
  else
    let n : Int := Int.ofNat (digitsToNat digits 0)
    some (if neg then -n else n, rest)

mutual

def parseVal : Nat → List Char → Option (JValue × List Char)
  | 0, _ => none
  | fuel + 1, cs =>
      match skipWs cs with
      | [] => none
      | c :: rest =>
          if c = 'n' then
            match eatLit ['u', 'l', 'l'] rest with
            | some r => some (.jnull, r)
            | none => none
          else if c = 't' then
            match eatLit ['r', 'u', 'e'] rest with
            | some r => some (.jbool true, r)
            | none => none
          else if c = 'f' then
            match eatLit ['a', 'l', 's', 'e'] rest with
            | some r => some (.jbool false, r)
            | none => none
          else if c = '"' then
            match parseStrBody (fuel + 1) rest with
            | some (s, r) => some (.jstr s, r)
            | none => none
          else if c = Char.ofNat 123 then
            parseObjBody fuel (skipWs rest) []
          else if c = '[' then
            parseArrBody fuel (skipWs rest) []
          else if c = '-' ∨ c.isDigit then
            match parseIntLit (c :: rest) with
            | some (n, r) => some (.jnum n, r)
            | none => none
          else none

/-- Parse the members of an object after `{` (accumulator holds the members
seen so far, with dict overwrite semantics). -/
def parseObjBody (fuel : Nat) (cs : List Char) (acc : List (String × JValue)) :
    Option (JValue × List Char) :=
  match fuel, cs with
  | 0, _ => none
  | _, [] => none
  | fuel + 1, c :: rest =>
      if c = Char.ofNat 125 ∧ acc.isEmpty then some (.jobj [], rest)
      else
        match skipWs (c :: rest) with
        | '"' :: rest' =>
            match parseStrBody fuel rest' with
            | none => none
            | some (k, afterKey) =>
                match skipWs afterKey with
                | ':' :: afterColon =>
                    match parseVal fuel afterColon with
                    | none => none
                    | some (v, afterVal) =>
                        let acc' := jinsert acc k v
                        match skipWs afterVal with
                        | ',' :: afterComma => parseObjBody fuel (skipWs afterComma) acc'
                        | d :: afterClose =>
                            if d = Char.ofNat 125 then some (.jobj acc', afterClose)
                            else none
                        | [] => none
                | _ => none
        | _ => none

/-- Parse the elements of an array after `[`. -/
def parseArrBody (fuel : Nat) (cs : List Char) (acc : List JValue) :
    Option (JValue × List Char) :=
  match fuel, cs with
  | 0, _ => none
  | _, [] => none
  | fuel + 1, c :: rest =>
      if c = ']' ∧ acc.isEmpty then some (.jarr [], rest)
      else
        match parseVal fuel (c :: rest) with
        | none => none
        | some (v, afterVal) =>
            let acc' := acc ++ [v]
            match skipWs afterVal with
            | ',' :: afterComma => parseArrBody fuel (skipWs afterComma) acc'
            | ']' :: afterClose => some (.jarr acc', afterClose)
            | _ => none

end

/-- `json.loads(s)`: parse `s` as a single JSON document; anything but
trailing whitespace after the document is a failure. -/
def jsonParse (s : String) : Option JValue :=
  match parseVal (s.length + 2) s.data with
  | some (v, rest) => if (skipWs rest).isEmpty then some v else none
  | none => none

/-! ### Exceptions (`local_llm/exceptions.py` and Python builtins)

`CompletionError`, `AgentError` and `MaxIterationsError` are the library's own
classes (`MaxIterationsError` subclasses `AgentError`); `IndexError` and
`TypeError` are the Python builtins the loop can hit (`response.choices[0]` on
an empty list, `tool.execute(**args)` on a non-mapping).  `exnMessage` is
Python's `str(e)` for these. -/

inductive Exn where
  | completionError : String → Exn
  | maxIterationsError : String → Exn
  | agentError : String → Exn
  | indexError : String → Exn
  | typeError : String → Exn
deriving Repr, DecidableEq

def exnMessage : Exn → String
  | .completionError m => m
  | .maxIterationsError m => m
  | .agentError m => m
  | .indexError m => m
  | .typeError m => m

/-- The exception's class, the "failure kind" a Python caller can
`except`-match on. -/
inductive ExnKind where
  | completionError | maxIterationsError | agentError | indexError | typeError
deriving Repr, DecidableEq

def exnKind : Exn → ExnKind
  | .completionError _ => .completionError
  | .maxIterationsError _ => .maxIterationsError
  | .agentError _ => .agentError
  | .indexError _ => .indexError
  | .typeError _ => .typeError

/-! ### Tool and ToolRegistry (`local_llm/agent/tool.py`) -/

/-- A tool's executable: Python `self.function(**kwargs)`.  It receives the
keyword-argument mapping and either returns a value or raises (`.error` holds
`str(e)` of the raised exception, which includes the `TypeError` raised on an
argument mismatch). -/
def ToolFn := List (String × JValue) → Except String JValue

/-- `Tool` dataclass. -/
structure Tool where
  name : String
  description : String := ""
  parameters : JValue := .jobj []
  function : ToolFn
  requires_browser : Bool := false

/-- `Tool.execute(**kwargs)`: run the executable; a `str` result is returned
as-is, any other result is serialized with
`json.dumps(result, default=str, indent=2)`; any exception is caught and
rendered as a diagnostic string. -/
def Tool.execute (t : Tool) (kwargs : List (String × JValue)) : String :=
  match t.function kwargs with
  | .error e => "Error executing " ++ t.name ++ ": " ++ e
  | .ok (.jstr s) => s
  | .ok r => dumpsIndent2 r

/-- `ToolRegistry`: a dict from name to `Tool` (insertion-ordered). -/
structure ToolRegistry where
  tools : List (String × Tool)

/-- `register`: inserts/overwrites by name (dict assignment semantics). -/
def ToolRegistry.register (r : ToolRegistry) (t : Tool) : ToolRegistry :=
  if r.tools.any (fun p => p.1 = t.name) then
    ⟨r.tools.map (fun p => if p.1 = t.name then (t.name, t) else p)⟩
  else
    ⟨r.tools ++ [(t.name, t)]⟩

/-- `get(name)`: pure dict lookup, never raises. -/
def ToolRegistry.get (r : ToolRegistry) (name : String) : Option Tool :=
  match r.tools.find? (fun p => p.1 = name) with
  | some p => some p.2
  | none => none

/-- `[t.name for t in self.registry.list_tools()]`. -/
def ToolRegistry.toolNames (r : ToolRegistry) : List String :=
  r.tools.map (fun p => p.2.name)

/-! ### Messages and ConversationHistory (`local_llm/agent/conversation.py`) -/

/-- A parsed tool call in OpenAI dict format, as produced by
`Agent._parse_tool_calls` (`{"id": ..., "type": "function", "function":
{"name": ..., "arguments": ...}}`).  `arguments` is `jstr` when the payload is
a Python string (tier 1 always, tier 2 when the extracted arguments were a
dict and got re-serialized); otherwise it is the raw non-string value tier 2
extracted. -/
structure ToolCall where
  id : String
  name : String
  arguments : JValue
deriving Repr

/-- One history message.  Roles are the closed set
`system | user | assistant | tool`; assistant messages carry nullable content
and an optional `tool_calls` list; tool messages carry the correlation id and
the tool name. -/
inductive Message where
  | system : String → Message
  | user : String → Message
  | assistant : Option String → Option (List ToolCall) → Message
  | tool : (tool_call_id : String) → (name : String) → (content : String) → Message
deriving Repr

def Message.isSystem : Message → Bool
  | .system _ => true
  | _ => false

/-- Python `lst[-keep:]` for an integer `keep`: the last `keep` elements when
`keep > 0` (all of them when `keep ≥ len`), `lst[(-keep):]` i.e. drop `-keep`
from the front when `keep ≤ 0` (in particular `keep = 0` slices from index
`-0 = 0` and keeps everything). -/
def pySliceFromNeg (l : List Message) (keep : Int) : List Message :=
  if keep ≤ 0 then l.drop (-keep).toNat
  else l.drop (l.length - keep.toNat)

structure ConversationHistory where
  messages : List Message
  max_messages : Nat

/-- `ConversationHistory.__init__`: `if system_prompt:` is a truthiness test,
so an empty prompt adds no system message. -/
def ConversationHistory.init (system_prompt : Option String) (max_messages : Nat) :
    ConversationHistory :=
  match system_prompt with
  | some s => if s = "" then ⟨[], max_messages⟩ else ⟨[.system s], max_messages⟩
  | none => ⟨[], max_messages⟩

/-- `_trim_if_needed`, applied to a message list: when over the cap, keep the
system messages and the slice `non_system[-keep:]` with
`keep = max_messages - len(system)`. -/
def trimIfNeeded (msgs : List Message) (max_messages : Nat) : List Message :=
  if msgs.length ≤ max_messages then msgs
  else
    let system := msgs.filter Message.isSystem
    let non_system := msgs.filter (fun m => !m.isSystem)
    let keep : Int := (max_messages : Int) - system.length
    system ++ pySliceFromNeg non_system keep

def ConversationHistory.append (h : ConversationHistory) (m : Message) :
    ConversationHistory :=
  ⟨trimIfNeeded (h.messages ++ [m]) h.max_messages, h.max_messages⟩

def ConversationHistory.add_user_message (h : ConversationHistory) (content : String) :
    ConversationHistory :=
  h.append (.user content)

def ConversationHistory.add_assistant_message (h : ConversationHistory)
    (content : String) : ConversationHistory :=
  h.append (.assistant (some content) none)

/-- `add_assistant_tool_calls`: append the raw assistant message
(the agent builds it with `content = None` and the parsed `tool_calls`). -/
def ConversationHistory.add_assistant_tool_calls (h : ConversationHistory)
    (m : Message) : ConversationHistory :=
  h.append m

/-- `add_tool_result`: append a tool message.  No validation of
`tool_call_id` whatsoever is performed. -/
def ConversationHistory.add_tool_result (h : ConversationHistory)
    (tool_call_id : String) (name : String) (content : String) :
    ConversationHistory :=
  h.append (.tool tool_call_id name content)

/-- `clear`: drop everything but system messages. -/
def ConversationHistory.clear (h : ConversationHistory) : ConversationHistory :=
  ⟨h.messages.filter Message.isSystem, h.max_messages⟩

/-- The scan of `get_last_assistant_content` over the reversed list:
`msg["role"] == "assistant" and msg.get("content")` is a truthiness test, so
both `None` and `""` are skipped. -/
def lastAssistantGo : List Message → Option String
  | [] => none
  | .assistant (some c) _ :: rest => if c = "" then lastAssistantGo rest else some c
  | _ :: rest => lastAssistantGo rest

def ConversationHistory.get_last_assistant_content (h : ConversationHistory) :
    Option String :=
  lastAssistantGo h.messages.reverse

/-! ### Configuration (`local_llm/config.py`) -/

/-- Default of `AGENT_MAX_RESULT_LENGTH`. -/
def AGENT_MAX_RESULT_LENGTH : Nat := 4000

/-- Default of `AGENT_MAX_ITERATIONS` / the `max_iterations` parameter. -/
def AGENT_MAX_ITERATIONS : Nat := 10

/-! ### Backend boundary -/

/-- One message of the completion response (`choice.message`): nullable text
content and an optional native tool-call list, whose `arguments` field is a
JSON-encoded string (the OpenAI wire format). -/
structure NativeToolCall where
  id : String
  name : String
  arguments : String
deriving Repr

structure RespMessage where
  content : Option String := none
  tool_calls : Option (List NativeToolCall) := none
deriving Repr

structure Response where
  choices : List RespMessage
deriving Repr

/-- The generation backend: given the index of the call within this `chat`
invocation and the history snapshot sent, either a transport-level failure
(`.error`, carrying `str(e)`) or a response. -/
def Backend := Nat → List Message → Except String Response

/-! ### Agent (`local_llm/agent/agent.py`) -/

/-- The construction-time configuration of an `Agent` that the loop reads
(model name, base url and temperature only flow into the request and are
omitted from the backend boundary).  `pyHash` stands for Python's
environment-dependent `hash` on strings. -/
structure AgentCfg where
  max_iterations : Nat := AGENT_MAX_ITERATIONS
  max_result_length : Nat := AGENT_MAX_RESULT_LENGTH
  registry : ToolRegistry := ⟨[]⟩
  pyHash : String → Int := fun _ => 0

/-- The ASCII whitespace `str.strip()` removes. -/
def isPySpace (c : Char) : Bool :=
  c = ' ' ∨ c = '\t' ∨ c = '\n' ∨ c = '\r' ∨ c = Char.ofNat 11 ∨ c = Char.ofNat 12

/-- Python `str.strip()`: drop leading and trailing whitespace. -/
def pyStrip (s : String) : String :=
  ⟨((s.data.dropWhile isPySpace).reverse.dropWhile isPySpace).reverse⟩

/-- Python `s[:n]`: the first `n` characters (all of them when `n ≥ len`). -/
def pyTake (s : String) (n : Nat) : String :=
  ⟨s.data.take n⟩

/-- `str.find(c)`: index of the first occurrence, `None` here for Python's
`-1`. -/
def strFindChar (s : String) (c : Char) : Option Nat :=
  s.data.findIdx? (· = c)

/-- `str.rfind(c)`: index of the last occurrence. -/
def strRFindChar (s : String) (c : Char) : Option Nat :=
  match s.data.reverse.findIdx? (· = c) with
  | some i => some (s.data.length - 1 - i)
  | none => none

/-- The tier-2 extraction window (`agent.py` lines 268-272): the substring of
the (already stripped) content from the first `{` to the last `}`, provided
both exist and the `}` comes strictly later. -/
def extractJsonSubstring (content : String) : Option String :=
  match strFindChar content (Char.ofNat 123),
        strRFindChar content (Char.ofNat 125) with
  | some json_start, some json_end =>
      if json_end > json_start then
        some ⟨(content.data.drop json_start).take (json_end + 1 - json_start)⟩
      else none
  | _, _ => none

/-- Python `str(v)` for the values a tier-2 `name` field can hold; only the
string case matters to any claim (a non-string `name` just fails registry
lookup downstream exactly like an unknown name). -/
def jvalueToPyStr : JValue → String
  | .jstr s => s
  | v => dumpsCompact v

/-- `Agent._parse_tool_calls`.  Tier 1: a truthy `message.tool_calls` is used
verbatim.  Tier 2: a truthy string content is stripped, the substring from the
first `{` to the last `}` is parsed; an object with a `name` key and a
`parameters` or `arguments` key becomes a single call whose id is
`call_` + `abs(hash(json_str)) % 100000` and whose arguments are re-serialized
to a JSON string when they are a mapping.  Any parse failure falls through to
`None`. -/
def parseToolCalls (pyHash : String → Int) (m : RespMessage) :
    Option (List ToolCall) :=
  match m.tool_calls with
  | some (tc :: tcs) =>
      some ((tc :: tcs).map fun n => ⟨n.id, n.name, .jstr n.arguments⟩)
  | _ =>
      match m.content with
      | none => none
      | some c =>
          if c = "" then none
          else
            match extractJsonSubstring (pyStrip c) with
            | some json_str =>
                match jsonParse json_str with
                | some (.jobj parsed) =>
                    match jlookup parsed "name" with
                    | some nameV =>
                        if (jlookup parsed "parameters").isSome ∨
                            (jlookup parsed "arguments").isSome then
                          let tool_args : JValue :=
                            match jlookup parsed "parameters" with
                            | some v => v
                            | none =>
                                match jlookup parsed "arguments" with
                                | some v => v
                                | none => .jobj []
                          let args_val : JValue :=
                            match tool_args with
                            | .jobj fields => .jstr (dumpsCompact (.jobj fields))
                            | v => v
                          some [⟨"call_" ++ toString ((pyHash json_str).natAbs % 100000),
                                 jvalueToPyStr nameV, args_val⟩]
                        else none
                    | none => none
                | _ => none
            | none => none

/-- Truncation of a tool result (`agent.py` lines 214-216). -/
def truncateResult (cap : Nat) (result : String) : String :=
  if result.length > cap then
    pyTake result cap ++ "\n... [truncated, " ++ toString result.length ++
      " chars total]"
  else result

/-- Python's `repr` of a list of strings, as an f-string renders
`{[t.name for t in ...]}`. -/
def pyStrListRepr (l : List String) : String :=
  let sq := (Char.ofNat 39).toString
  let quoted := l.map (fun s => sq ++ s ++ sq)
  let body :=
    match quoted with
    | [] => ""
    | x :: xs => xs.foldl (fun acc y => acc ++ ", " ++ y) x
  "[" ++ body ++ "]"

/-- Argument resolution for one invocation (`agent.py` lines 194-200): a
string payload is `json.loads`-ed, with `{}` substituted on a decode failure;
a non-string payload is used as-is. -/
def resolveArgs (tc : ToolCall) : JValue :=
  match tc.arguments with
  | .jstr s =>
      match jsonParse s with
      | some v => v
      | none => .jobj []
  | v => v

/-- The per-invocation body of the dispatch loop (`agent.py` lines 190-227):
resolve the argument payload, look the tool up, execute it or synthesize the
unknown-tool string, truncate, and append the tool result.
`tool.execute(**args)` with a non-mapping `args` raises `TypeError` at the
call site, outside every `try`, aborting the whole dispatch. -/
def dispatchCalls (cfg : AgentCfg) :
    ConversationHistory → List ToolCall → ConversationHistory × Option Exn
  | h, [] => (h, none)
  | h, tc :: rest =>
      let args : JValue := resolveArgs tc
      match cfg.registry.get tc.name with
      | some tool =>
          match args with
          | .jobj kwargs =>
              let result := truncateResult cfg.max_result_length (tool.execute kwargs)
              dispatchCalls cfg (h.add_tool_result tc.id tc.name result) rest
          | _ =>
              (h, some (.typeError "argument after ** must be a mapping"))
      | none =>
          let result := "Error: Unknown tool " ++ (Char.ofNat 39).toString ++
            tc.name ++ (Char.ofNat 39).toString ++ ". Available tools: " ++
            pyStrListRepr cfg.registry.toolNames
          let result := truncateResult cfg.max_result_length result
          dispatchCalls cfg (h.add_tool_result tc.id tc.name result) rest

/-- `Agent._run_loop`, structured over the remaining iteration budget.
Returns the loop's outcome, the number of backend calls performed, and the
final history.  A backend failure becomes `CompletionError`; an empty
`choices` list is the uncaught `IndexError` of `response.choices[0]`;
exhausting the budget raises `MaxIterationsError`. -/
def runLoopAux (cfg : AgentCfg) (backend : Backend) :
    Nat → Nat → ConversationHistory → Except Exn String × Nat × ConversationHistory
  | 0, _, h =>
      (.error (.maxIterationsError ("Agent exceeded " ++
        toString cfg.max_iterations ++ " iterations")), 0, h)
  | remaining + 1, callIdx, h =>
      match backend callIdx h.messages with
      | .error em => (.error (.completionError ("LLM call failed: " ++ em)), 1, h)
      | .ok resp =>
          match resp.choices.head? with
          | none => (.error (.indexError "list index out of range"), 1, h)
          | some message =>
              match parseToolCalls cfg.pyHash message with
              | some (tc :: rest) =>
                  let h1 := h.add_assistant_tool_calls
                    (.assistant none (some (tc :: rest)))
                  match dispatchCalls cfg h1 (tc :: rest) with
                  | (h2, some e) => (.error e, 1, h2)
                  | (h2, none) =>
                      let r := runLoopAux cfg backend remaining (callIdx + 1) h2
                      (r.1, r.2.1 + 1, r.2.2)
              | _ =>
                  let final_content := message.content.getD ""
                  let h' := if final_content = "" then h
                    else h.add_assistant_message final_content
                  (.ok (pyStrip final_content), 1, h')

/-- `Agent._run_loop` proper: the budget starts at `max_iterations`, the call
index at 0. -/
def runLoop (cfg : AgentCfg) (backend : Backend) (h : ConversationHistory) :
    Except Exn String × Nat × ConversationHistory :=
  runLoopAux cfg backend cfg.max_iterations 0 h

/-- `Agent.chat`: append the user message, run the loop;
`MaxIterationsError` degrades to the last assistant content plus a notice (or
a fixed message); any other exception is re-raised as
`AgentError("Agent failed: " + str(e))`. -/
def chatCall (cfg : AgentCfg) (backend : Backend) (h : ConversationHistory)
    (message : String) : Except Exn String × Nat × ConversationHistory :=
  let h0 := h.add_user_message message
  let r := runLoop cfg backend h0
  match r.1 with
  | .ok s => (.ok s, r.2.1, r.2.2)
  | .error (.maxIterationsError _) =>
      match r.2.2.get_last_assistant_content with
      | some last =>
          (.ok (last ++ "\n\n[Stopped: reached maximum tool iterations]"),
           r.2.1, r.2.2)
      | none =>
          (.ok ("[Agent reached maximum iterations without producing a final " ++
            "answer. Please try rephrasing your question.]"), r.2.1, r.2.2)
  | .error e =>
      (.error (.agentError ("Agent failed: " ++ exnMessage e)), r.2.1, r.2.2)

/-! ### Derived notions used by the claims -/

/-- A tool call whose resolved argument payload is a mapping, so that
`tool.execute(**args)` cannot raise `TypeError` at the call site. -/
def DispatchSafe (tc : ToolCall) : Prop :=
  ∃ kwargs, resolveArgs tc = .jobj kwargs

/-- The invocation ids an assistant message carries. -/
def invocationIds : Message → List String
  | .assistant _ (some tcs) => tcs.map (fun tc => tc.id)
  | _ => []

/-- The invocation ids seen after scanning a message list, given the ids seen
before it. -/
def seenAfter (seen : List String) : List Message → List String
  | [] => seen
  | m :: rest => seenAfter (seen ++ invocationIds m) rest

/-- Scan of the correlation invariant: every `tool` message's correlation id
must be among the invocation ids of some earlier assistant message. -/
def correlatedGo (seen : List String) : List Message → Bool
  | [] => true
  | m :: rest =>
      (match m with
       | .tool id _ _ => seen.contains id
       | _ => true) && correlatedGo (seen ++ invocationIds m) rest

/-- Every tool-result message references a preceding invocation id. -/
def Correlated (msgs : List Message) : Prop :=
  correlatedGo [] msgs = true

/-- A message that is not an assistant message with truthy (non-null,
non-empty) content. -/
def notTruthyAssistant (m : Message) : Prop :=
  ∀ c tcs, m = .assistant (some c) tcs → c = ""

/-! ### Concrete instances used by witnesses and counterexamples -/

def c7errTool : Tool := { name := "t1", function := fun _ => .error "boom" }

def c7strTool : Tool := { name := "t2", function := fun _ => .ok (.jstr "plain") }

def c7objTool : Tool :=
  { name := "t3", function := fun _ => .ok (.jobj [("k", .jraw "obj repr")]) }

def c10tool : Tool :=
  { name := "web_search",
    function := fun kw =>
      if kw.isEmpty then .error "missing query" else .ok (.jstr "ok") }

def c10cfg : AgentCfg := { registry := ⟨[("web_search", c10tool)]⟩ }

def c10hist : ConversationHistory := ConversationHistory.init (some "sys") 100

/-- The exact backend text of the tier-2 test vector. -/
def c3content : String :=
  "\x7b\"name\": \"web_search\", \"parameters\": \x7b\"query\": \"x\"\x7d\x7d"

/-- The re-serialized argument payload tier 2 attaches to the invocation. -/
def c3argsJson : String := "\x7b\"query\": \"x\"\x7d"

def c3pyHash : String → Int := fun _ => 7

def c3tool : Tool :=
  { name := "web_search",
    function := fun kw => .ok (.jstr ("searched:" ++ dumpsCompact (.jobj kw))) }

def c3cfg : AgentCfg := { registry := ⟨[("web_search", c3tool)]⟩ }

def c3hist : ConversationHistory := ConversationHistory.init none 100

def c1cxTool : Tool := { name := "t", function := fun _ => .ok (.jstr "r") }

/-- A backend stub that returns a tool invocation on every call, whose
argument string parses to a JSON array (not a mapping). -/
def c1cxBackend : Backend :=
  fun _ _ => .ok ⟨[{ tool_calls := some [⟨"id1", "t", "[1]"⟩] }]⟩

def c1cxCfg : AgentCfg := { max_iterations := 2, registry := ⟨[("t", c1cxTool)]⟩ }

/-- A backend stub that returns a well-formed tool invocation on every
call. -/
def c1wBackend : Backend :=
  fun _ _ => .ok ⟨[{ tool_calls := some [⟨"id1", "web_search", "\x7b\x7d"⟩] }]⟩

def c1wCfg : AgentCfg := { max_iterations := 2 }

def c1wHist : ConversationHistory := ConversationHistory.init (some "sys") 100

def c2wBackend : Backend :=
  fun _ _ => .ok ⟨[{ tool_calls := some [⟨"id1", "web_search", "\x7b\x7d"⟩] }]⟩

def c2wCfg : AgentCfg := { max_iterations := 1 }

/-- A history that already holds an assistant answer. -/
def c2wHist : ConversationHistory :=
  (ConversationHistory.init (some "sys") 100).add_assistant_message "draft answer"

/-- A fresh history with no assistant turn yet. -/
def c2nHist : ConversationHistory := ConversationHistory.init (some "sys") 100

def c5cxTool : Tool :=
  { name := "web_search", function := fun _ => .ok (.jstr "found") }

def c5cxCfg : AgentCfg :=
  { max_iterations := 1, registry := ⟨[("web_search", c5cxTool)]⟩ }

def c5cxBackend : Backend :=
  fun _ _ => .ok ⟨[{ tool_calls := some [⟨"id1", "web_search", "\x7b\x7d"⟩] }]⟩

/-- The tight history cap that makes trimming evict the invocation record. -/
def c5cxHist : ConversationHistory := ConversationHistory.init (some "sys") 2

def c5wHist : ConversationHistory := ConversationHistory.init (some "sys") 100

def c8cfg : AgentCfg := { max_iterations := 3 }

def c8failBackend : Backend := fun _ _ => .error "boom"

/-- A backend whose transport succeeds but whose response has an empty
`choices` list: `response.choices[0]` then raises `IndexError`, an unexpected
in-loop fault that is not a backend-call failure. -/
def c8emptyBackend : Backend := fun _ _ => .ok ⟨[]⟩

def c8hist : ConversationHistory := ConversationHistory.init (some "sys") 100

def c9cfg : AgentCfg := { max_iterations := 3 }

/-- A backend that replies with no tool calls and `content = None`. -/
def c9blankBackend : Backend := fun _ _ => .ok ⟨[{ content := none }]⟩

def c9loopBackend : Backend :=
  fun _ _ => .ok ⟨[{ tool_calls := some [⟨"id1", "web_search", "\x7b\x7d"⟩] }]⟩

def c9loopCfg : AgentCfg := { max_iterations := 2 }

def c9hist : ConversationHistory := ConversationHistory.init (some "sys") 100

/-! ## Claims -/

/-- C4: a tool result longer than the configured cap is truncated to exactly
the first `cap` characters plus a suffix disclosing the original length and
that truncation occurred; a result at or below the cap is recorded unmodified;
the default cap is 4000 characters. -/
theorem claim_C4 (cap : Nat) (r : String) :
    (cap < r.length →
      truncateResult cap r =
        pyTake r cap ++ "\n... [truncated, " ++ toString r.length ++
          " chars total]" ∧
      (pyTake r cap).length = cap) ∧
    (r.length ≤ cap → truncateResult cap r = r) ∧
    AGENT_MAX_RESULT_LENGTH = 4000 := by
  refine ⟨fun hgt => ⟨?_, ?_⟩, fun hle => ?_, rfl⟩
  · unfold truncateResult
    rw [if_pos hgt]
  · have hd : (pyTake r cap).length = (r.data.take cap).length := rfl
    rw [hd, List.length_take]
    exact Nat.min_eq_left (Nat.le_of_lt hgt)
  · unfold truncateResult
    rw [if_neg (by omega)]

/-- C4 witness: at cap 4 and a 7-character result, the recorded result is the
4-character prefix plus the disclosing suffix; at or below the cap it is
unmodified. -/
theorem claim_C4_witness :
    truncateResult 4 "abcdefg" = "abcd\n... [truncated, 7 chars total]" ∧
    truncateResult 4 "abcd" = "abcd" := by
  refine ⟨?_, (claim_C4 4 "abcd").2.1 (by decide)⟩
  have h := ((claim_C4 4 "abcdefg").1 (by decide)).1
  exact h

/-- C6: the claim asserts that after any sequence of appends the history
length is at most `max_messages`.  The code violates this: with a system
prompt and `max_messages = 1`, `keep = max - len(system) = 0` and the Python
slice `non_system[-0:]` is the whole list, so `_trim_if_needed` removes
nothing and the history stays at length 2 > 1 forever.  This theorem
evaluates the model at that failing input. -/
theorem claim_C6_bug :
    ((ConversationHistory.init (some "s") 1).add_user_message "u").messages =
      [.system "s", .user "u"] ∧
    ((ConversationHistory.init (some "s") 1).add_user_message "u").messages.length
      = 2 ∧
    ((ConversationHistory.init (some "s") 1).add_user_message "u").max_messages
      = 1 :=
  ⟨rfl, rfl, rfl⟩

/-- C7: `Tool.execute` never propagates: a raised exception becomes the
diagnostic string `Error executing {name}: {message}`; a string return value
is passed through as-is; any other return value is serialized with
`json.dumps(..., default=str, indent=2)`, which substitutes the `str()`
rendering for non-serializable members instead of failing. -/
theorem claim_C7 (t : Tool) (kwargs : List (String × JValue)) :
    (∀ e, t.function kwargs = .error e →
        t.execute kwargs = "Error executing " ++ t.name ++ ": " ++ e) ∧
    (∀ s, t.function kwargs = .ok (.jstr s) → t.execute kwargs = s) ∧
    (∀ v, t.function kwargs = .ok v → (∀ s, v ≠ .jstr s) →
        t.execute kwargs = dumpsIndent2 v) := by
  unfold Tool.execute
  refine ⟨fun e he => ?_, fun s hs => ?_, fun v hv hne => ?_⟩
  · rw [he]
  · rw [hs]
  · rw [hv]
    cases v
    case jstr s => exact absurd rfl (hne s)
    all_goals rfl

/-- C7 witness: a failing executable yields the diagnostic string, a string
return passes through, a non-string return (containing a non-serializable
member) is serialized with the `str()` substitution. -/
theorem claim_C7_witness :
    c7errTool.execute [] = "Error executing t1: boom" ∧
    c7strTool.execute [] = "plain" ∧
    c7objTool.execute [] = dumpsIndent2 (.jobj [("k", .jraw "obj repr")]) ∧
    dumpsIndent2 (.jobj [("k", .jraw "obj repr")]) =
      "\x7b\n  \"k\": \"obj repr\"\n\x7d" :=
  ⟨(claim_C7 c7errTool []).1 "boom" rfl,
   (claim_C7 c7strTool []).2.1 "plain" rfl,
   (claim_C7 c7objTool []).2.2 _ rfl (fun _ h => nomatch h),
   rfl⟩

/-- C10: a tier-1 tool call whose `arguments` string is not valid JSON does
not abort the loop and is not skipped: `json.loads` failure falls back to
`args = {}`, the registered tool is executed with the empty mapping, and the
outcome (whatever string `Tool.execute` produced, truncated) is recorded as
that invocation's tool result, with no exception escaping the dispatch. -/
theorem claim_C10 (cfg : AgentCfg) (h : ConversationHistory)
    (id name s : String) (t : Tool)
    (hget : cfg.registry.get name = some t) (hparse : jsonParse s = none) :
    dispatchCalls cfg h [⟨id, name, .jstr s⟩] =
      (h.add_tool_result id name
        (truncateResult cfg.max_result_length (t.execute [])), none) := by
  simp only [dispatchCalls, resolveArgs, hparse, hget]

/-- C10 witness: with the unparseable argument string `not json`, the tool is
run with the empty mapping (here raising inside the executable, which
`Tool.execute` converts to a diagnostic), and that diagnostic is recorded as
the invocation's result without any error escaping. -/
theorem claim_C10_witness :
    dispatchCalls c10cfg c10hist [⟨"id9", "web_search", .jstr "not json"⟩] =
      (c10hist.add_tool_result "id9" "web_search"
        "Error executing web_search: missing query", none) :=
  claim_C10 c10cfg c10hist "id9" "web_search" "not json" c10tool rfl rfl

/-- C3: with no structured invocations and exactly the content
`{"name": "web_search", "parameters": {"query": "x"}}`, parsing yields one
invocation (its id derived from the extracted first-`{`-to-last-`}` substring,
its arguments re-serialized to a JSON text payload), the dispatch step runs the
registered tool `web_search` with the mapping `{"query": "x"}`, and any content
whose extracted substring fails to parse yields no invocation rather than an
error. -/
theorem claim_C3 :
    (∀ pyHash : String → Int,
      parseToolCalls pyHash { content := some c3content, tool_calls := none } =
        some [⟨"call_" ++ toString ((pyHash c3content).natAbs % 100000),
              "web_search", .jstr c3argsJson⟩]) ∧
    (∀ (cfg : AgentCfg) (t : Tool) (h : ConversationHistory) (id : String),
      cfg.registry.get "web_search" = some t →
      dispatchCalls cfg h [⟨id, "web_search", .jstr c3argsJson⟩] =
        (h.add_tool_result id "web_search"
          (truncateResult cfg.max_result_length
            (t.execute [("query", .jstr "x")])), none)) ∧
    (∀ (pyHash : String → Int) (c : String),
      (∀ s, extractJsonSubstring (pyStrip c) = some s → jsonParse s = none) →
      parseToolCalls pyHash { content := some c, tool_calls := none } = none) := by
  refine ⟨fun pyHash => rfl, fun cfg t h id hget => ?_, fun pyHash c hfail => ?_⟩
  · have hp : jsonParse c3argsJson = some (.jobj [("query", .jstr "x")]) := rfl
    simp only [dispatchCalls, resolveArgs, hp, hget]
  · simp only [parseToolCalls]
    by_cases hc : c = ""
    · simp [hc]
    · simp only [if_neg hc]
      cases hex : extractJsonSubstring (pyStrip c) with
      | none => simp [hex]
      | some s => simp [hex, hfail s hex]

/-- C3 witness: the concrete parse produces the single `web_search` call, the
concrete dispatch records the tool's output on the mapping
`{"query": "x"}`, and a content whose brace-window is not JSON parses to no
invocation. -/
theorem claim_C3_witness :
    parseToolCalls c3pyHash { content := some c3content, tool_calls := none } =
      some [⟨"call_7", "web_search", .jstr c3argsJson⟩] ∧
    dispatchCalls c3cfg c3hist [⟨"call_7", "web_search", .jstr c3argsJson⟩] =
      (c3hist.add_tool_result "call_7" "web_search"
        "searched:\x7b\"query\": \"x\"\x7d", none) ∧
    parseToolCalls c3pyHash
      { content := some "result \x7bnot json\x7d end", tool_calls := none } =
      none := by
  refine ⟨claim_C3.1 c3pyHash, claim_C3.2.1 c3cfg c3tool c3hist "call_7" rfl, ?_⟩
  refine claim_C3.2.2 c3pyHash _ ?_
  intro s hs
  have h7 : "\x7bnot json\x7d" = s := Option.some.inj hs
  rw [← h7]
  rfl

/-! ### Helper lemmas about the loop and the history -/

theorem append_messages_of_le (h : ConversationHistory) (m : Message)
    (hlen : h.messages.length + 1 ≤ h.max_messages) :
    (h.append m).messages = h.messages ++ [m] := by
  unfold ConversationHistory.append trimIfNeeded
  rw [if_pos (by simpa using hlen)]

theorem runLoopAux_calls_le (cfg : AgentCfg) (backend : Backend) :
    ∀ (remaining callIdx : Nat) (h : ConversationHistory),
      (runLoopAux cfg backend remaining callIdx h).2.1 ≤ remaining := by
  intro remaining
  induction remaining with
  | zero => intro callIdx h; simp [runLoopAux]
  | succ r ih =>
      intro callIdx h
      simp only [runLoopAux]
      split
      · simp
      · split
        · simp
        · split
          · split
            · simp
            · simpa using Nat.succ_le_succ (ih _ _)
          · simp

theorem dispatchCalls_safe (cfg : AgentCfg) :
    ∀ (tcs : List ToolCall) (h : ConversationHistory),
      (∀ tc ∈ tcs, DispatchSafe tc) →
      ∃ h', dispatchCalls cfg h tcs = (h', none) := by
  intro tcs
  induction tcs with
  | nil => exact fun h _ => ⟨h, rfl⟩
  | cons tc rest ih =>
      intro h hsafe
      obtain ⟨kwargs, hk⟩ := hsafe tc (List.mem_cons_self tc rest)
      simp only [dispatchCalls, hk]
      cases hg : cfg.registry.get tc.name with
      | some t => exact ih _ (fun t' ht' => hsafe t' (List.mem_cons_of_mem _ ht'))
      | none => exact ih _ (fun t' ht' => hsafe t' (List.mem_cons_of_mem _ ht'))

theorem runLoopAux_exhausts (cfg : AgentCfg) (backend : Backend)
    (hb : ∀ k msgs, ∃ resp m tc tcs,
      backend k msgs = .ok resp ∧ resp.choices.head? = some m ∧
      parseToolCalls cfg.pyHash m = some (tc :: tcs) ∧
      ∀ t ∈ tc :: tcs, DispatchSafe t) :
    ∀ (remaining callIdx : Nat) (h : ConversationHistory),
      ∃ h', runLoopAux cfg backend remaining callIdx h =
        (.error (.maxIterationsError ("Agent exceeded " ++
          toString cfg.max_iterations ++ " iterations")), remaining, h') := by
  intro remaining
  induction remaining with
  | zero => intro callIdx h; exact ⟨h, rfl⟩
  | succ r ih =>
      intro callIdx h
      obtain ⟨resp, m, tc, tcs, hbe, hhd, hpar, hsafe⟩ := hb callIdx h.messages
      obtain ⟨h2, hd⟩ := dispatchCalls_safe cfg (tc :: tcs)
        (h.add_assistant_tool_calls (.assistant none (some (tc :: tcs)))) hsafe
      obtain ⟨h', hrec⟩ := ih (callIdx + 1) h2
      refine ⟨h', ?_⟩
      simp only [runLoopAux, hbe, hhd, hpar, hd, hrec]

theorem chatCall_calls (cfg : AgentCfg) (backend : Backend)
    (h : ConversationHistory) (msg : String) :
    (chatCall cfg backend h msg).2.1 =
      (runLoop cfg backend (h.add_user_message msg)).2.1 := by
  simp only [chatCall]
  split
  · rfl
  · split <;> rfl
  · rfl

/-- C1: as stated, the claim is false.  `c1cxBackend` returns a tool
invocation on every call, but its argument string `[1]` parses to a JSON
array, so `tool.execute(**args)` raises `TypeError` at the call site: `chat`
performs exactly one backend call (the configured bound is 2) and surfaces the
generic agent failure instead of the iteration-exhaustion path. -/
theorem claim_C1_counterexample :
    (chatCall c1cxCfg c1cxBackend (ConversationHistory.init (some "sys") 100)
      "hi").2.1 = 1 ∧
    (chatCall c1cxCfg c1cxBackend (ConversationHistory.init (some "sys") 100)
      "hi").1 =
      .error (.agentError "Agent failed: argument after ** must be a mapping") ∧
    c1cxCfg.max_iterations = 2 :=
  ⟨rfl, rfl, rfl⟩

/-- C1 (amended): for every backend stub that returns tool invocations on
every call *whose argument payloads are dispatch-safe* (they resolve to a
mapping), a single chat call performs exactly `max_iterations` backend calls,
the loop ends in the iteration-exhaustion signal, and chat returns text via
the degradation path; moreover, against any backend whatsoever, never more
than `max_iterations` backend calls are made. -/
theorem claim_C1_amended (cfg : AgentCfg) (backend : Backend)
    (h : ConversationHistory) (msg : String)
    (hb : ∀ k msgs, ∃ resp m tc tcs,
      backend k msgs = .ok resp ∧ resp.choices.head? = some m ∧
      parseToolCalls cfg.pyHash m = some (tc :: tcs) ∧
      ∀ t ∈ tc :: tcs, DispatchSafe t) :
    (chatCall cfg backend h msg).2.1 = cfg.max_iterations ∧
    (runLoop cfg backend (h.add_user_message msg)).1 =
      .error (.maxIterationsError ("Agent exceeded " ++
        toString cfg.max_iterations ++ " iterations")) ∧
    (∃ s, (chatCall cfg backend h msg).1 = .ok s) ∧
    (∀ backend' : Backend,
      (chatCall cfg backend' h msg).2.1 ≤ cfg.max_iterations) := by
  obtain ⟨h', hrun⟩ := runLoopAux_exhausts cfg backend hb cfg.max_iterations 0
    (h.add_user_message msg)
  have hloop : runLoop cfg backend (h.add_user_message msg) =
      (.error (.maxIterationsError ("Agent exceeded " ++
        toString cfg.max_iterations ++ " iterations")), cfg.max_iterations, h') := by
    simp only [runLoop]; exact hrun
  refine ⟨?_, ?_, ?_, ?_⟩
  · rw [chatCall_calls, hloop]
  · rw [hloop]
  · simp only [chatCall, hloop]
    split
    · exact ⟨_, rfl⟩
    · exact ⟨_, rfl⟩
  · intro backend'
    rw [chatCall_calls]
    simp only [runLoop]
    exact runLoopAux_calls_le cfg backend' cfg.max_iterations 0 _

/-- C1 witness: the always-tool-calling stub with mapping-shaped arguments
drives exactly 2 backend calls under `max_iterations = 2` and chat still
returns text. -/
theorem claim_C1_witness :
    (chatCall c1wCfg c1wBackend c1wHist "hi").2.1 = 2 ∧
    (∃ s, (chatCall c1wCfg c1wBackend c1wHist "hi").1 = .ok s) := by
  have hb : ∀ k msgs, ∃ resp m tc tcs,
      c1wBackend k msgs = .ok resp ∧ resp.choices.head? = some m ∧
      parseToolCalls c1wCfg.pyHash m = some (tc :: tcs) ∧
      ∀ t ∈ tc :: tcs, DispatchSafe t := by
    intro k msgs
    refine ⟨_, _, ⟨"id1", "web_search", .jstr "\x7b\x7d"⟩, [], rfl, rfl, rfl, ?_⟩
    intro t ht
    rw [List.mem_singleton] at ht
    subst ht
    exact ⟨[], rfl⟩
  have hmain := claim_C1_amended c1wCfg c1wBackend c1wHist "hi" hb
  exact ⟨hmain.1, hmain.2.2.1⟩

/-- C8: as stated, the claim is false in its "distinguishable failure kind"
part.  A backend-call failure is wrapped as `CompletionError` inside the loop,
but `chat` catches it along with every other unexpected fault and re-raises
the generic `AgentError`; the caller sees the same exception class for a
transport fault and for an unrelated in-loop `IndexError`, distinguishable
only by message text. -/
theorem claim_C8_counterexample :
    (chatCall c8cfg c8failBackend c8hist "hi").1 =
      .error (.agentError "Agent failed: LLM call failed: boom") ∧
    (chatCall c8cfg c8emptyBackend c8hist "hi").1 =
      .error (.agentError "Agent failed: list index out of range") ∧
    exnKind (Exn.agentError "Agent failed: LLM call failed: boom") =
      exnKind (Exn.agentError "Agent failed: list index out of range") :=
  ⟨rfl, rfl, rfl⟩

/-- C8 (amended): if the backend fails, chat performs no retry — exactly one
backend call happens even when the iteration budget allows more — and raises
to its caller; inside the loop the failure is the distinct `CompletionError`
kind, but it surfaces as the generic `AgentError` whose message embeds the
backend failure text, so at the caller it is distinguishable by message
content only, not as a separate failure kind. -/
theorem claim_C8_amended (cfg : AgentCfg) (backend : Backend)
    (h : ConversationHistory) (msg em : String)
    (hfail : ∀ k msgs, backend k msgs = .error em)
    (hiter : 1 ≤ cfg.max_iterations) :
    (chatCall cfg backend h msg).2.1 = 1 ∧
    (chatCall cfg backend h msg).1 =
      .error (.agentError ("Agent failed: " ++ ("LLM call failed: " ++ em))) ∧
    (runLoop cfg backend (h.add_user_message msg)).1 =
      .error (.completionError ("LLM call failed: " ++ em)) := by
  obtain ⟨r, hr⟩ : ∃ r, cfg.max_iterations = r + 1 :=
    ⟨cfg.max_iterations - 1, by omega⟩
  have hloop : runLoop cfg backend (h.add_user_message msg) =
      (.error (.completionError ("LLM call failed: " ++ em)), 1,
        h.add_user_message msg) := by
    simp only [runLoop, hr, runLoopAux, hfail]
  refine ⟨?_, ?_, ?_⟩
  · rw [chatCall_calls, hloop]
  · simp only [chatCall, hloop, exnMessage]
  · rw [hloop]

/-- C8 witness: at a concrete always-failing backend the single call and the
wrapped `AgentError` are exhibited. -/
theorem claim_C8_witness :
    (chatCall c8cfg c8failBackend c8hist "hi").2.1 = 1 ∧
    (chatCall c8cfg c8failBackend c8hist "hi").1 =
      .error (.agentError "Agent failed: LLM call failed: boom") := by
  have hmain := claim_C8_amended c8cfg c8failBackend c8hist "hi" "boom"
    (fun _ _ => rfl) (by decide)
  exact ⟨hmain.1, hmain.2.1⟩

/-- C9: as stated, the claim is false.  A backend reply carrying no tool
calls and null content makes `chat` return normally with the empty string
(`final_content = message.content or ""`, returned stripped, and the spec's
own step 5 allows it): the caller does silently receive an empty result. -/
theorem claim_C9_counterexample :
    (chatCall c9cfg c9blankBackend c9hist "hi").1 = .ok "" :=
  rfl

/-- C9 (amended): chat either raises or returns text; the iteration-
exhaustion degradation always returns non-empty text, but a normal completion
returns the backend's final text stripped, which is empty exactly when that
text is empty or whitespace (after exactly one backend call if the first
response already carries no tool invocations). -/
theorem claim_C9_amended (cfg : AgentCfg) (backend : Backend)
    (h : ConversationHistory) (msg : String) :
    (∀ em, (runLoop cfg backend (h.add_user_message msg)).1 =
        .error (.maxIterationsError em) →
      ∃ s, (chatCall cfg backend h msg).1 = .ok s ∧ s ≠ "") ∧
    (∀ resp m, backend 0 (h.add_user_message msg).messages = .ok resp →
      resp.choices.head? = some m →
      parseToolCalls cfg.pyHash m = none →
      1 ≤ cfg.max_iterations →
      (chatCall cfg backend h msg).1 = .ok (pyStrip (m.content.getD "")) ∧
      (chatCall cfg backend h msg).2.1 = 1) := by
  constructor
  · intro em hex
    simp only [chatCall, hex]
    cases hlast : (runLoop cfg backend
        (h.add_user_message msg)).2.2.get_last_assistant_content with
    | some last =>
        refine ⟨last ++ "\n\n[Stopped: reached maximum tool iterations]",
          by simp [hlast], ?_⟩
        intro hcontr
        have hlen := congrArg String.length hcontr
        rw [String.length_append] at hlen
        simp at hlen
        have h44 : ("\n\n[Stopped: reached maximum tool iterations]").length = 44 :=
          rfl
        omega
    | none =>
        refine ⟨"[Agent reached maximum iterations without producing a " ++
          "final answer. Please try rephrasing your question.]",
          by simp [hlast], by decide⟩
  · intro resp m hbe hhd hpar hiter
    obtain ⟨r, hr⟩ : ∃ r, cfg.max_iterations = r + 1 :=
      ⟨cfg.max_iterations - 1, by omega⟩
    have h1 : (runLoop cfg backend (h.add_user_message msg)).1 =
        .ok (pyStrip (m.content.getD "")) ∧
        (runLoop cfg backend (h.add_user_message msg)).2.1 = 1 := by
      refine ⟨?_, ?_⟩ <;> simp only [runLoop, hr, runLoopAux, hbe, hhd, hpar]
    refine ⟨?_, ?_⟩
    · simp only [chatCall, h1.1]
    · rw [chatCall_calls, h1.2]

/-- C9 witness: a two-iteration tool loop exhausts and returns non-empty
degradation text, while a first-call blank reply returns the empty string
after exactly one backend call. -/
theorem claim_C9_witness :
    (∃ s, (chatCall c9loopCfg c9loopBackend c9hist "hi").1 = .ok s ∧ s ≠ "") ∧
    (chatCall c9cfg c9blankBackend c9hist "hi").1 = .ok "" ∧
    (chatCall c9cfg c9blankBackend c9hist "hi").2.1 = 1 := by
  refine ⟨(claim_C9_amended c9loopCfg c9loopBackend c9hist "hi").1
    "Agent exceeded 2 iterations" rfl, ?_, ?_⟩
  · exact ((claim_C9_amended c9cfg c9blankBackend c9hist "hi").2
      ⟨[{ content := none }]⟩ { content := none } rfl rfl rfl (by decide)).1
  · exact ((claim_C9_amended c9cfg c9blankBackend c9hist "hi").2
      ⟨[{ content := none }]⟩ { content := none } rfl rfl rfl (by decide)).2

theorem lastAssistantGo_append_skip :
    ∀ (l rest : List Message), (∀ m ∈ l, notTruthyAssistant m) →
      lastAssistantGo (l ++ rest) = lastAssistantGo rest := by
  intro l
  induction l with
  | nil => intro rest _; rfl
  | cons m l ih =>
      intro rest hskip
      have hm := hskip m (List.mem_cons_self m l)
      have htail : ∀ m' ∈ l, notTruthyAssistant m' :=
        fun m' hm' => hskip m' (List.mem_cons_of_mem _ hm')
      cases m with
      | assistant c tcs =>
          cases c with
          | some s =>
              have hs : s = "" := hm s tcs rfl
              subst hs
              simpa [lastAssistantGo] using ih rest htail
          | none => simpa [lastAssistantGo] using ih rest htail
      | system s => simpa [lastAssistantGo] using ih rest htail
      | user s => simpa [lastAssistantGo] using ih rest htail
      | tool a b c => simpa [lastAssistantGo] using ih rest htail

/-- C2: when a chat call ends in iteration exhaustion, chat returns text and
never raises: if the final history has an assistant message with truthy
content, the most recent such content is returned with the appended marked
notice, otherwise the fixed rephrase message is returned.  The last two
conjuncts characterize `get_last_assistant_content` as the most recent
assistant content that is non-null and non-empty (through chat, assistant
turns are only ever recorded with non-empty content, so non-null coincides
with truthy there). -/
theorem claim_C2 (cfg : AgentCfg) (backend : Backend) (h : ConversationHistory)
    (msg em : String)
    (hex : (runLoop cfg backend (h.add_user_message msg)).1 =
      .error (.maxIterationsError em)) :
    (∃ s, (chatCall cfg backend h msg).1 = .ok s) ∧
    (∀ last,
      (runLoop cfg backend (h.add_user_message msg)).2.2.get_last_assistant_content
        = some last →
      (chatCall cfg backend h msg).1 =
        .ok (last ++ "\n\n[Stopped: reached maximum tool iterations]")) ∧
    ((runLoop cfg backend (h.add_user_message msg)).2.2.get_last_assistant_content
        = none →
      (chatCall cfg backend h msg).1 =
        .ok ("[Agent reached maximum iterations without producing a final " ++
          "answer. Please try rephrasing your question.]")) ∧
    (∀ (hh : ConversationHistory) (l₁ : List Message) (c : String)
        (tcs : Option (List ToolCall)) (l₂ : List Message),
      hh.messages = l₁ ++ .assistant (some c) tcs :: l₂ → c ≠ "" →
      (∀ m ∈ l₂, notTruthyAssistant m) →
      hh.get_last_assistant_content = some c) ∧
    (∀ hh : ConversationHistory, (∀ m ∈ hh.messages, notTruthyAssistant m) →
      hh.get_last_assistant_content = none) := by
  refine ⟨?_, ?_, ?_, ?_, ?_⟩
  · simp only [chatCall, hex]
    split
    · exact ⟨_, rfl⟩
    · exact ⟨_, rfl⟩
  · intro last hlast
    simp only [chatCall, hex, hlast]
  · intro hlast
    simp only [chatCall, hex, hlast]
  · intro hh l₁ c tcs l₂ hm hc hskip
    unfold ConversationHistory.get_last_assistant_content
    rw [hm, List.reverse_append, List.reverse_cons, List.append_assoc,
      lastAssistantGo_append_skip l₂.reverse _
        (fun m hm' => hskip m (List.mem_reverse.mp hm'))]
    simp [lastAssistantGo, hc]
  · intro hh hall
    unfold ConversationHistory.get_last_assistant_content
    have := lastAssistantGo_append_skip hh.messages.reverse []
      (fun m hm' => hall m (List.mem_reverse.mp hm'))
    simpa using this

/-- C2 witness: with a prior assistant turn `draft answer` in history and a
backend that always tool-calls under a budget of 1, exhaustion returns the
draft plus the notice; with a fresh history it returns the fixed rephrase
message; and the characterization conjunct is exercised on the concrete final
history. -/
theorem claim_C2_witness :
    (chatCall c2wCfg c2wBackend c2wHist "q2").1 =
      .ok "draft answer\n\n[Stopped: reached maximum tool iterations]" ∧
    (chatCall c2wCfg c2wBackend c2nHist "q1").1 =
      .ok ("[Agent reached maximum iterations without producing a final " ++
        "answer. Please try rephrasing your question.]") := by
  have hmain := claim_C2 c2wCfg c2wBackend c2wHist "q2"
    "Agent exceeded 1 iterations" rfl
  have hfresh := claim_C2 c2wCfg c2wBackend c2nHist "q1"
    "Agent exceeded 1 iterations" rfl
  have hchar := hmain.2.2.2.1
    (runLoop c2wCfg c2wBackend (c2wHist.add_user_message "q2")).2.2
    [.system "sys"] "draft answer" none
    [.user "q2",
     .assistant none (some [⟨"id1", "web_search", .jstr "\x7b\x7d"⟩]),
     .tool "id1" "web_search"
       ("Error: Unknown tool " ++ (Char.ofNat 39).toString ++ "web_search" ++
         (Char.ofNat 39).toString ++ ". Available tools: []")]
    rfl (by decide) (by
      intro m hm'
      fin_cases hm' <;> intro c tcs heq <;> cases heq)
  exact ⟨hmain.2.1 "draft answer" hchar, hfresh.2.2.1 rfl⟩

theorem seenAfter_append :
    ∀ (l₁ : List Message) (seen : List String) (l₂ : List Message),
      seenAfter seen (l₁ ++ l₂) = seenAfter (seenAfter seen l₁) l₂ := by
  intro l₁
  induction l₁ with
  | nil => intro seen l₂; rfl
  | cons m l ih =>
      intro seen l₂
      simpa [seenAfter] using ih (seen ++ invocationIds m) l₂

theorem correlatedGo_append :
    ∀ (l₁ : List Message) (seen : List String) (l₂ : List Message),
      correlatedGo seen (l₁ ++ l₂) =
        (correlatedGo seen l₁ && correlatedGo (seenAfter seen l₁) l₂) := by
  intro l₁
  induction l₁ with
  | nil => intro seen l₂; simp [correlatedGo, seenAfter]
  | cons m l ih =>
      intro seen l₂
      simp [correlatedGo, seenAfter, ih, Bool.and_assoc]

theorem dispatchCalls_correlated (cfg : AgentCfg) :
    ∀ (tcs : List ToolCall) (hcur : ConversationHistory),
      Correlated hcur.messages →
      (∀ t ∈ tcs, t.id ∈ seenAfter [] hcur.messages) →
      hcur.messages.length + tcs.length ≤ hcur.max_messages →
      Correlated (dispatchCalls cfg hcur tcs).1.messages := by
  intro tcs
  induction tcs with
  | nil => intro hcur hc _ _; exact hc
  | cons t rest ih =>
      intro hcur hc hid hlen
      have hlr : (t :: rest).length = rest.length + 1 := by simp
      have hle : hcur.messages.length + 1 ≤ hcur.max_messages := by omega
      have hstep : ∀ content : String,
          Correlated (hcur.add_tool_result t.id t.name content).messages ∧
          (∀ t' ∈ rest, t'.id ∈ seenAfter []
            (hcur.add_tool_result t.id t.name content).messages) ∧
          (hcur.add_tool_result t.id t.name content).messages.length +
              rest.length ≤
            (hcur.add_tool_result t.id t.name content).max_messages := by
        intro content
        have hm : (hcur.add_tool_result t.id t.name content).messages =
            hcur.messages ++ [.tool t.id t.name content] :=
          append_messages_of_le hcur _ hle
        have hc' : correlatedGo [] hcur.messages = true := hc
        have hseen : seenAfter []
            (hcur.add_tool_result t.id t.name content).messages =
            seenAfter [] hcur.messages := by
          rw [hm, seenAfter_append]
          simp [seenAfter, invocationIds]
        refine ⟨?_, ?_, ?_⟩
        · show correlatedGo [] _ = true
          rw [hm, correlatedGo_append, hc']
          simp [correlatedGo]
          exact hid t (List.mem_cons_self t rest)
        · intro t' ht'
          rw [hseen]
          exact hid t' (List.mem_cons_of_mem _ ht')
        · rw [hm]
          show _ ≤ hcur.max_messages
          simp only [List.length_append]
          simp
          omega
      simp only [dispatchCalls]
      cases hg : cfg.registry.get t.name with
      | some tool =>
          cases ha : resolveArgs t with
          | jobj kwargs => exact ih _ (hstep _).1 (hstep _).2.1 (hstep _).2.2
          | jnull => exact hc
          | jbool b => exact hc
          | jnum n => exact hc
          | jstr s => exact hc
          | jarr l => exact hc
          | jraw r => exact hc
      | none => exact ih _ (hstep _).1 (hstep _).2.1 (hstep _).2.2

/-- C5: as stated, the claim is false.  With a history cap of 2 and a system
prompt, one ordinary agent iteration produces a final history
`[system, tool]`: trimming evicted the assistant invocation message, so the
tool message's correlation id `id1` matches no preceding invocation id — and
`add_tool_result` performed no check or flagging whatsoever along the way. -/
theorem claim_C5_counterexample :
    correlatedGo []
      ((chatCall c5cxCfg c5cxBackend c5cxHist "hi").2.2).messages = false ∧
    ((chatCall c5cxCfg c5cxBackend c5cxHist "hi").2.2).messages =
      [.system "sys", .tool "id1" "web_search" "found"] ∧
    (chatCall c5cxCfg c5cxBackend c5cxHist "hi").1 =
      .ok ("[Agent reached maximum iterations without producing a final " ++
        "answer. Please try rephrasing your question.]") :=
  ⟨rfl, rfl, rfl⟩

/-- C5 (amended): in a correlated history, one full dispatch round — append
the assistant invocation record, then append each tool result keyed by an id
of that record — preserves the correlation invariant (every tool message's id
matches a preceding invocation id), *provided* the history stays within its
cap so that no trimming occurs.  Trimming can break the invariant (see the
counterexample), duplicate ids can break uniqueness, and `add_tool_result`
itself performs no validation, logging, or flagging. -/
theorem claim_C5_amended (cfg : AgentCfg) (h : ConversationHistory)
    (tc : ToolCall) (tcs : List ToolCall)
    (hc : Correlated h.messages)
    (hcap : h.messages.length + 1 + (tc :: tcs).length ≤ h.max_messages) :
    Correlated ((dispatchCalls cfg
      (h.add_assistant_tool_calls (.assistant none (some (tc :: tcs))))
      (tc :: tcs)).1.messages) := by
  have hlr : (tc :: tcs).length = tcs.length + 1 := by simp
  have hle : h.messages.length + 1 ≤ h.max_messages := by omega
  have hm : (h.add_assistant_tool_calls
      (.assistant none (some (tc :: tcs)))).messages =
      h.messages ++ [.assistant none (some (tc :: tcs))] :=
    append_messages_of_le h _ hle
  have hc' : correlatedGo [] h.messages = true := hc
  apply dispatchCalls_correlated
  · show correlatedGo [] _ = true
    rw [hm, correlatedGo_append, hc']
    simp [correlatedGo]
  · intro t ht
    rw [hm, seenAfter_append]
    simp only [seenAfter, invocationIds, List.append_nil]
    exact List.mem_append_right _ (List.mem_map_of_mem _ ht)
  · rw [hm]
    show _ ≤ h.max_messages
    simp only [List.length_append]
    simp
    omega

/-- C5 witness: a concrete correlated round under a roomy cap stays
correlated. -/
theorem claim_C5_witness :
    Correlated ((dispatchCalls c5cxCfg
      (c5wHist.add_assistant_tool_calls
        (.assistant none (some [⟨"id1", "web_search", .jstr "\x7b\x7d"⟩])))
      [⟨"id1", "web_search", .jstr "\x7b\x7d"⟩]).1.messages) :=
  claim_C5_amended c5cxCfg c5wHist ⟨"id1", "web_search", .jstr "\x7b\x7d"⟩ []
    rfl (by decide)

end LocalLLM
